import Mathlib

/-!
Verification development for the agent execution engine of the
`claude-agentsdk-opensource` repository: the step executor, checkpoint gate,
interrupt controller, and the state-persistence example hooks.

The repository ships the SDK core (`claude_agent_sdk.base.BaseAgent` with
`execute_step`, `offer_checkpoint`, `send_interrupt`) only as an interface
re-export; the executor core itself is modelled here from the specification
(spec.md §3, §4.1–§4.4, §7), while the example hook code
(`examples/hooks/state_saving_example.py`) is embedded directly from source.
-/

/-- Step inputs/outputs are opaque payloads (spec §3: inputs are "treated as
an opaque payload"); we render them as strings. -/
abbrev Value := String

/-- Classified failure carried by a failed step (spec §3 StepResult:
"`error` ... carries error kind + message"). -/
structure ErrorInfo where
  kind : String
  message : String
deriving DecidableEq, Repr

/-- Immutable view passed into a step's work function and the start hook
(spec §3 StepContext). -/
structure StepContext where
  step_name : String
  inputs : List (String × Value)
  metadata : List (String × Value)
deriving DecidableEq, Repr

/-- Immutable record of a completed step (spec §3 StepResult). -/
structure StepResult where
  step_name : String
  success : Bool
  duration : Nat
  output : Option Value
  error : Option ErrorInfo
deriving DecidableEq, Repr

/-- Closed enumeration of interrupt decisions (spec §3 InterruptDecision). -/
inductive InterruptDecision where
  | CONTINUE
  | PAUSE
  | ABORT
deriving DecidableEq, Repr

/-- Outcome of invoking a step's work function: a normal return or a raised
failure. -/
inductive WorkOutcome where
  | ok (v : Value)
  | raise (e : ErrorInfo)

/-- Outcome of a checkpoint hook invocation (spec §4.2: normal return
approves; a raised rejection or timeout signal propagates). -/
inductive CheckOutcome where
  | approve
  | reject
  | timeout
deriving DecidableEq, Repr

/-- The slice of AgentState passed to hooks (spec §3 AgentState: agent id and
the free-form state bag). -/
structure AgentView where
  agent_id : String
  custom : List (String × Value)
deriving DecidableEq, Repr

/-- Observable events emitted by the executor, recording each hook invocation
with its arguments and each work-function call and history append. -/
inductive Event where
  | startHook (ctx : StepContext)
  | workCall (name : String)
  | recordResult (r : StepResult)
  | errorHook (e : ErrorInfo) (name : String)
  | endHook (r : StepResult)
  | checkpointHook (name : String) (data : List (String × Value))
deriving DecidableEq, Repr

/-- Hook registration surface (spec §6): each hook is a single optional
callable. Start/end/error hooks are observational (no return value is used),
so registration is a flag and invocation is recorded as an `Event`; the
checkpoint and interrupt hooks return values the engine consumes, so they are
modelled as functions. -/
structure Hooks where
  onStepStart : Bool
  onStepEnd : Bool
  onError : Bool
  onCheckpoint : Option (AgentView → String → List (String × Value) → CheckOutcome)
  onInterrupt : Option (AgentView → String → List (String × Value) → InterruptDecision)

/-- Mutable run state threaded through `execute`: the session's append-only
history, the emitted event trace, the interrupt controller's single pending
slot (spec §9: "an atomically-swappable single slot"), the last step output,
and the agent's identity/state bag. -/
structure RunState where
  agent_id : String
  custom : List (String × Value)
  hist : List StepResult
  trace : List Event
  slot : Option InterruptDecision
  lastOutput : Option Value
deriving DecidableEq, Repr

/-- AgentView of a run state, as passed to hooks. -/
def viewOf (s : RunState) : AgentView :=
  { agent_id := s.agent_id, custom := s.custom }

/-- Terminal outcome of `execute` (spec §7: callers distinguish completed,
paused (resumable), and the failure kinds). -/
inductive ExecOutcome where
  | completed (v : Option Value)
  | abortedRun
  | pausedRun
  | stepFailed (e : ErrorInfo)
  | checkpointRejected (name : String)
  | checkpointTimeout (name : String)
deriving DecidableEq, Repr

/-- Status after one flow item: continue running, or terminate the run. -/
inductive RunStatus where
  | running (s : RunState)
  | done (o : ExecOutcome) (s : RunState)

/-- The run state carried by a `RunStatus`. -/
def stateOf : RunStatus → RunState
  | RunStatus.running s => s
  | RunStatus.done _ s => s

/-- A publish by `send_interrupt` overwrites the controller's pending slot;
absence of a publish leaves it unchanged. -/
def applyPub (slot : Option InterruptDecision) (pub : Option InterruptDecision) :
    Option InterruptDecision :=
  match pub with
  | some d => some d
  | none => slot

/-- Modelled from the spec: `BaseAgent.execute_step` (spec §4.1), whose source
(`claude_agent_sdk/base.py`) is not in the repository snapshot. Strictly
ordered: build a `StepContext`; check the pending interrupt decision
(read-then-cleared, `ABORT` fails immediately with `Aborted` and neither the
start hook nor `work` is invoked); invoke the start hook; run `work` with
timing (`dur` is the measured elapsed time, `durPub` the decision published
by a racing `send_interrupt` while `work` is in flight). On normal return:
build a successful `StepResult`, append it to history, invoke the end hook,
then re-check the controller and raise `Paused` instead of returning normally
if `PAUSE` became pending. On failure: build a failed `StepResult`, append it
to history, invoke the error hook with the error and step name, invoke the
end hook with the failed result, and re-raise the original failure. -/
def exec_step (hooks : Hooks) (s : RunState) (name : String)
    (work : StepContext → WorkOutcome) (inputs : List (String × Value))
    (dur : Nat) (durPub : Option InterruptDecision) : RunStatus :=
  let ctx : StepContext := { step_name := name, inputs := inputs, metadata := [] }
  if s.slot = some InterruptDecision.ABORT then
    RunStatus.done ExecOutcome.abortedRun { s with slot := none }
  else
    let t1 := s.trace ++ (if hooks.onStepStart then [Event.startHook ctx] else [])
    match work ctx with
    | WorkOutcome.ok v =>
        let r : StepResult :=
          { step_name := name, success := true, duration := dur,
            output := some v, error := none }
        let t2 := t1 ++ [Event.workCall name, Event.recordResult r]
                     ++ (if hooks.onStepEnd then [Event.endHook r] else [])
        let s1 : RunState :=
          { s with hist := s.hist ++ [r], trace := t2, slot := none,
                   lastOutput := some v }
        if durPub = some InterruptDecision.PAUSE then
          RunStatus.done ExecOutcome.pausedRun s1
        else
          RunStatus.running s1
    | WorkOutcome.raise e =>
        let r : StepResult :=
          { step_name := name, success := false, duration := dur,
            output := none, error := some e }
        let t2 := t1 ++ [Event.workCall name, Event.recordResult r]
                     ++ (if hooks.onError then [Event.errorHook e name] else [])
                     ++ (if hooks.onStepEnd then [Event.endHook r] else [])
        RunStatus.done (ExecOutcome.stepFailed e)
          { s with hist := s.hist ++ [r], trace := t2, slot := none }

/-- Modelled from the spec: `BaseAgent.offer_checkpoint` (spec §4.2), whose
source is not in the repository snapshot. With no checkpoint hook registered
it is a no-op; otherwise the hook is invoked with the agent view, name and
data, a normal return approves, and a raised rejection/timeout signal
propagates and terminates the run. -/
def offer_checkpoint (hooks : Hooks) (s : RunState) (name : String)
    (data : List (String × Value)) : RunStatus :=
  match hooks.onCheckpoint with
  | none => RunStatus.running s
  | some h =>
      let s1 : RunState := { s with trace := s.trace ++ [Event.checkpointHook name data] }
      match h (viewOf s) name data with
      | CheckOutcome.approve => RunStatus.running s1
      | CheckOutcome.reject => RunStatus.done (ExecOutcome.checkpointRejected name) s1
      | CheckOutcome.timeout => RunStatus.done (ExecOutcome.checkpointTimeout name) s1

/-- Modelled from the spec: `BaseAgent.send_interrupt` (spec §4.3), whose
source is not in the repository snapshot. With no interrupt hook the default
decision is `CONTINUE`; otherwise the hook is invoked with the agent view,
reason and data, its decision is recorded as pending on the controller's
slot, and that decision is returned to the caller. -/
def send_interrupt (hooks : Hooks) (view : AgentView) (reason : String)
    (data : List (String × Value)) (slot : Option InterruptDecision) :
    InterruptDecision × Option InterruptDecision :=
  match hooks.onInterrupt with
  | none => (InterruptDecision.CONTINUE, slot)
  | some h =>
      let d := h view reason data
      (d, some d)

/-- One named item of a flow driven by `execute`: a step (with its work
function, inputs, and measured duration) or a checkpoint offer. -/
inductive FlowItem where
  | step (name : String) (work : StepContext → WorkOutcome)
      (inputs : List (String × Value)) (dur : Nat)
  | checkpoint (name : String) (data : List (String × Value))

/-- The name of a flow item. -/
def itemName : FlowItem → String
  | FlowItem.step name _ _ _ => name
  | FlowItem.checkpoint name _ => name

/-- Modelled from the spec: one flow item under `execute` (spec §2, §4.1–4.3).
The schedule entry `(pub, durPub)` gives the decision a racing
`send_interrupt` published before the item's boundary check and, for a step,
the one published while its work was in flight. -/
def execItem (hooks : Hooks) (s : RunState) :
    FlowItem → Option InterruptDecision × Option InterruptDecision → RunStatus
  | FlowItem.step name work inputs dur, (pub, durPub) =>
      exec_step hooks { s with slot := applyPub s.slot pub } name work inputs dur durPub
  | FlowItem.checkpoint name data, (pub, _) =>
      offer_checkpoint hooks { s with slot := applyPub s.slot pub } name data

/-- Modelled from the spec: the step loop of `BaseAgent.execute` (spec §2,
§4.4), whose source is not in the repository snapshot. Drives the flow items
in order, threading the run state; the first item that terminates
(abort/pause/failure/checkpoint rejection) ends the run, and an exhausted
flow completes with the last step's output. -/
def execFlow (hooks : Hooks) :
    RunState → List FlowItem →
    List (Option InterruptDecision × Option InterruptDecision) →
    ExecOutcome × RunState
  | s, [], _ => (ExecOutcome.completed s.lastOutput, s)
  | s, item :: rest, sched =>
      match execItem hooks s item (sched.headD (none, none)) with
      | RunStatus.running s1 => execFlow hooks s1 rest sched.tail
      | RunStatus.done o s1 => (o, s1)

/-- Fresh run state on `execute` entry (spec §4.4: a new session opens with
empty history). -/
def initState (aid : String) : RunState :=
  { agent_id := aid, custom := [], hist := [], trace := [], slot := none,
    lastOutput := none }

/-- Modelled from the spec: a whole `execute` call from a fresh session. -/
def execute (hooks : Hooks) (aid : String) (flow : List FlowItem)
    (sched : List (Option InterruptDecision × Option InterruptDecision)) :
    ExecOutcome × RunState :=
  execFlow hooks (initState aid) flow sched

/-- Number of start-hook invocations recorded in a trace. -/
def startCount (t : List Event) : Nat :=
  (t.filter (fun e => match e with | Event.startHook _ => true | _ => false)).length

/-- Number of end-hook invocations recorded in a trace. -/
def endCount (t : List Event) : Nat :=
  (t.filter (fun e => match e with | Event.endHook _ => true | _ => false)).length

/-- The output/error exclusivity invariant of a `StepResult` (spec §3):
`success` holds exactly when `output` is populated and `error` absent, and
fails exactly when `error` is populated and `output` absent. -/
def resultExclusive (r : StepResult) : Prop :=
  (r.success = true ↔ (r.output.isSome = true ∧ r.error = none)) ∧
  (r.success = false ↔ (r.error.isSome = true ∧ r.output = none))

instance (r : StepResult) : Decidable (resultExclusive r) := by
  unfold resultExclusive; infer_instance

namespace StateSaving

/-- The `execution_state` document of
`examples/hooks/state_saving_example.py` (`StatePersistenceManager.__init__`):
session identity, lifecycle status, the completed-step records with their
outputs, and the pause/resume timestamps. A completed-step record is
`(step_name, completed_at, duration)`. -/
structure ExecutionState where
  session_id : String
  started_at : String
  status : String
  completed_steps : List (String × String × Nat)
  current_step : Option String
  step_outputs : List (String × Value)
  paused_at : Option String
  resumed_at : Option String
deriving DecidableEq, Repr

/-- `StatePersistenceManager.resume` (state_saving_example.py lines 108-122).
`saved` models the sequence of snapshots written to the state file by
`_save_state`; `now` is the current timestamp. If the status is not
`"paused"` the call raises `ValueError("Cannot resume - execution not
paused")` and nothing is written; otherwise the status becomes
`"in_progress"`, `resumed_at` is recorded, the state is persisted, and the
execution state is returned. -/
def resume (st : ExecutionState) (saved : List ExecutionState) (now : String) :
    Except String ExecutionState × List ExecutionState :=
  if st.status ≠ "paused" then
    (Except.error "Cannot resume - execution not paused", saved)
  else
    let st1 : ExecutionState := { st with status := "in_progress", resumed_at := some now }
    (Except.ok st1, saved ++ [st1])

end StateSaving

/-- Hooks with all observational hooks registered and no checkpoint or
interrupt hook (as in end-to-end runs that only log). -/
def obsHooks : Hooks :=
  { onStepStart := true, onStepEnd := true, onError := true,
    onCheckpoint := none, onInterrupt := none }

/-- A checkpoint hook that raises `CheckpointRejected` on the name
`"plan_ready"` and approves everything else (spec §8 scenario B; compare
`CheckpointManager.on_checkpoint_opportunity` raising
`CheckpointRejectedError` in checkpoint_example.py). -/
def rejectPlanReady : AgentView → String → List (String × Value) → CheckOutcome :=
  fun _ name _ => if name = "plan_ready" then CheckOutcome.reject else CheckOutcome.approve

/-- Hooks for scenario B: the rejecting checkpoint hook is registered. -/
def hooksB : Hooks :=
  { onStepStart := true, onStepEnd := true, onError := true,
    onCheckpoint := some rejectPlanReady, onInterrupt := none }

/-- Scenario-B flow: a `plan` step, then the `"plan_ready"` checkpoint offer,
then an `execute` step (as in `DemoAgent.execute` of checkpoint_example.py). -/
def flowB : List FlowItem :=
  [FlowItem.step "plan" (fun _ => WorkOutcome.ok "plan_out") [("task", "t")] 1,
   FlowItem.checkpoint "plan_ready" [("plan", "plan_out")],
   FlowItem.step "execute" (fun _ => WorkOutcome.ok "exec_out") [] 1]

/-- The fixed four-step pausable flow of `PausableAgent.execute`
(state_saving_example.py): plan, prepare, execute, finalize, each with a
constant work function. -/
def pFlow : List FlowItem :=
  [FlowItem.step "plan" (fun _ => WorkOutcome.ok "plan_out") [("task", "t")] 1,
   FlowItem.step "prepare" (fun _ => WorkOutcome.ok "prep_out") [] 1,
   FlowItem.step "execute" (fun _ => WorkOutcome.ok "exec_out") [] 1,
   FlowItem.step "finalize" (fun _ => WorkOutcome.ok "final_out") [] 1]

/-- Schedule delivering a `PAUSE` decision while the second step's work is in
flight (the mid-flow `send_interrupt("user_interrupt")` of scenario C). -/
def pauseSched : List (Option InterruptDecision × Option InterruptDecision) :=
  [(none, none), (none, some InterruptDecision.PAUSE)]

/-- The uninterrupted run of the pausable flow. -/
def pRunFull : ExecOutcome × RunState := execute obsHooks "pausable" pFlow []

/-- The run of the pausable flow paused mid-flow by the `PAUSE` decision. -/
def pRunPaused : ExecOutcome × RunState := execute obsHooks "pausable" pFlow pauseSched

/-- The skip-list recovered from the paused run's recorded history: the names
of the already-completed steps (`StatePersistenceManager.get_completed_steps`).
-/
def pCompleted : List String := pRunPaused.2.hist.map (fun r => r.step_name)

/-- The resumed flow: `PausableAgent.execute` skips every step whose name is
in the skip-list and runs the remaining steps. -/
def pResumeFlow : List FlowItem :=
  pFlow.filter (fun it => !(pCompleted.contains (itemName it)))

/-- The fresh `execute` call seeded with the paused run's recorded history,
running the remaining steps of the flow. -/
def pRunResumed : ExecOutcome × RunState :=
  execFlow obsHooks { initState "pausable" with hist := pRunPaused.2.hist } pResumeFlow []

/-- C1: whenever execution reaches a step with an `ABORT` decision pending at
the pre-start-hook check, the whole run terminates immediately with
`Aborted`: the rest of the flow is not driven, and the step's work function
and start hook are never invoked (the trace and history are unchanged). -/
theorem execute_abort_pending_skips_step (hooks : Hooks) (s : RunState)
    (name : String) (work : StepContext → WorkOutcome)
    (inputs : List (String × Value)) (dur : Nat) (rest : List FlowItem)
    (sched : List (Option InterruptDecision × Option InterruptDecision))
    (pub durPub : Option InterruptDecision)
    (h : applyPub s.slot pub = some InterruptDecision.ABORT) :
    execFlow hooks s (FlowItem.step name work inputs dur :: rest)
        ((pub, durPub) :: sched)
      = (ExecOutcome.abortedRun, { s with slot := none }) ∧
    (execFlow hooks s (FlowItem.step name work inputs dur :: rest)
        ((pub, durPub) :: sched)).2.trace = s.trace ∧
    (execFlow hooks s (FlowItem.step name work inputs dur :: rest)
        ((pub, durPub) :: sched)).2.hist = s.hist := by
  have hmain : execFlow hooks s (FlowItem.step name work inputs dur :: rest)
      ((pub, durPub) :: sched)
      = (ExecOutcome.abortedRun, { s with slot := none }) := by
    simp [execFlow, execItem, exec_step, h]
  exact ⟨hmain, by rw [hmain], by rw [hmain]⟩

/-- Witness for C1: a concrete one-step flow with `ABORT` published before
the step terminates with `Aborted` and an untouched trace and history. -/
theorem execute_abort_pending_skips_step_witness :
    applyPub (initState "a").slot (some InterruptDecision.ABORT)
      = some InterruptDecision.ABORT ∧
    execFlow obsHooks (initState "a")
        [FlowItem.step "plan" (fun _ => WorkOutcome.ok "v") [] 1]
        [(some InterruptDecision.ABORT, none)]
      = (ExecOutcome.abortedRun, { initState "a" with slot := none }) :=
  ⟨rfl,
   (execute_abort_pending_skips_step obsHooks (initState "a") "plan"
      (fun _ => WorkOutcome.ok "v") [] 1 [] []
      (some InterruptDecision.ABORT) none rfl).1⟩

/-- C2: if a `PAUSE` decision is published while a step's work is in flight
and the work returns normally, the step still completes: its successful
`StepResult` is appended to the session history and the step-end hook is
invoked with it (both recorded in the trace), and only then does the
executor terminate with the distinguishable `Paused` signal instead of
returning normally — no completed work is discarded. -/
theorem execute_pause_after_completion (hooks : Hooks) (s : RunState)
    (name : String) (work : StepContext → WorkOutcome)
    (inputs : List (String × Value)) (dur : Nat) (rest : List FlowItem)
    (sched : List (Option InterruptDecision × Option InterruptDecision))
    (pub : Option InterruptDecision) (v : Value)
    (hne : applyPub s.slot pub ≠ some InterruptDecision.ABORT)
    (hw : work { step_name := name, inputs := inputs, metadata := [] }
            = WorkOutcome.ok v)
    (hs : hooks.onStepStart = true) (he : hooks.onStepEnd = true) :
    execFlow hooks s (FlowItem.step name work inputs dur :: rest)
        ((pub, some InterruptDecision.PAUSE) :: sched)
      = (ExecOutcome.pausedRun,
         { s with
             hist := s.hist ++
               [{ step_name := name, success := true, duration := dur,
                  output := some v, error := none }],
             trace := s.trace ++
               [Event.startHook { step_name := name, inputs := inputs, metadata := [] },
                Event.workCall name,
                Event.recordResult
                  { step_name := name, success := true, duration := dur,
                    output := some v, error := none },
                Event.endHook
                  { step_name := name, success := true, duration := dur,
                    output := some v, error := none }],
             slot := none, lastOutput := some v }) := by
  simp [execFlow, execItem, exec_step, hne, hw, hs, he]

/-- Witness for C2: a concrete step with `PAUSE` published while its work is
in flight completes, is recorded, and the run pauses. -/
theorem execute_pause_after_completion_witness :
    execFlow obsHooks (initState "a")
        [FlowItem.step "plan" (fun _ => WorkOutcome.ok "v") [] 1]
        [(none, some InterruptDecision.PAUSE)]
      = (ExecOutcome.pausedRun,
         { initState "a" with
             hist := [{ step_name := "plan", success := true, duration := 1,
                        output := some "v", error := none }],
             trace := [Event.startHook { step_name := "plan", inputs := [], metadata := [] },
                       Event.workCall "plan",
                       Event.recordResult
                         { step_name := "plan", success := true, duration := 1,
                           output := some "v", error := none },
                       Event.endHook
                         { step_name := "plan", success := true, duration := 1,
                           output := some "v", error := none }],
             slot := none, lastOutput := some "v" }) :=
  execute_pause_after_completion obsHooks (initState "a") "plan"
    (fun _ => WorkOutcome.ok "v") [] 1 [] [] none "v"
    (by decide) rfl rfl rfl

/-- C4: when a step's work raises, the executor builds the failed
`StepResult`, appends it to the session history, invokes the error hook with
the error and step name, invokes the step-end hook with the failed result
(in exactly that order, as the trace records), and re-raises the original
failure to its immediate caller — the `StepFailure` terminates the run and
is never swallowed. -/
theorem step_failure_recorded_reraised (hooks : Hooks) (s : RunState)
    (name : String) (work : StepContext → WorkOutcome)
    (inputs : List (String × Value)) (dur : Nat) (rest : List FlowItem)
    (sched : List (Option InterruptDecision × Option InterruptDecision))
    (pub durPub : Option InterruptDecision) (e : ErrorInfo)
    (hne : applyPub s.slot pub ≠ some InterruptDecision.ABORT)
    (hw : work { step_name := name, inputs := inputs, metadata := [] }
            = WorkOutcome.raise e)
    (hs : hooks.onStepStart = true) (herr : hooks.onError = true)
    (he : hooks.onStepEnd = true) :
    execFlow hooks s (FlowItem.step name work inputs dur :: rest)
        ((pub, durPub) :: sched)
      = (ExecOutcome.stepFailed e,
         { s with
             hist := s.hist ++
               [{ step_name := name, success := false, duration := dur,
                  output := none, error := some e }],
             trace := s.trace ++
               [Event.startHook { step_name := name, inputs := inputs, metadata := [] },
                Event.workCall name,
                Event.recordResult
                  { step_name := name, success := false, duration := dur,
                    output := none, error := some e },
                Event.errorHook e name,
                Event.endHook
                  { step_name := name, success := false, duration := dur,
                    output := none, error := some e }],
             slot := none }) := by
  simp [execFlow, execItem, exec_step, hne, hw, hs, herr, he]

/-- Witness for C4: a concrete step whose work raises is recorded as failed,
the error and end hooks run in order, and the failure terminates the run. -/
theorem step_failure_recorded_reraised_witness :
    execFlow obsHooks (initState "a")
        [FlowItem.step "plan"
           (fun _ => WorkOutcome.raise { kind := "StepFailure", message := "boom" })
           [] 1]
        [(none, none)]
      = (ExecOutcome.stepFailed { kind := "StepFailure", message := "boom" },
         { initState "a" with
             hist := [{ step_name := "plan", success := false, duration := 1,
                        output := none,
                        error := some { kind := "StepFailure", message := "boom" } }],
             trace := [Event.startHook { step_name := "plan", inputs := [], metadata := [] },
                       Event.workCall "plan",
                       Event.recordResult
                         { step_name := "plan", success := false, duration := 1,
                           output := none,
                           error := some { kind := "StepFailure", message := "boom" } },
                       Event.errorHook { kind := "StepFailure", message := "boom" } "plan",
                       Event.endHook
                         { step_name := "plan", success := false, duration := 1,
                           output := none,
                           error := some { kind := "StepFailure", message := "boom" } }],
             slot := none }) :=
  step_failure_recorded_reraised obsHooks (initState "a") "plan"
    (fun _ => WorkOutcome.raise { kind := "StepFailure", message := "boom" })
    [] 1 [] [] none none { kind := "StepFailure", message := "boom" }
    (by decide) rfl rfl rfl rfl

theorem startCount_append (t1 t2 : List Event) :
    startCount (t1 ++ t2) = startCount t1 + startCount t2 := by
  simp [startCount, List.filter_append]

theorem endCount_append (t1 t2 : List Event) :
    endCount (t1 ++ t2) = endCount t1 + endCount t2 := by
  simp [endCount, List.filter_append]

/-- One flow item adds the same number of start-hook and end-hook events to
the trace (when both hooks are registered). -/
theorem execItem_count (hooks : Hooks) (hs : hooks.onStepStart = true)
    (he : hooks.onStepEnd = true) (s : RunState) (item : FlowItem)
    (pd : Option InterruptDecision × Option InterruptDecision) :
    startCount (stateOf (execItem hooks s item pd)).trace + endCount s.trace
      = endCount (stateOf (execItem hooks s item pd)).trace + startCount s.trace := by
  cases item with
  | step name work inputs dur =>
      obtain ⟨pub, durPub⟩ := pd
      simp only [execItem, exec_step]
      by_cases hA : applyPub s.slot pub = some InterruptDecision.ABORT
      · simp [hA, stateOf]
        omega
      · simp only [hA, if_false, hs, he, if_true]
        cases hwork : work { step_name := name, inputs := inputs, metadata := [] } with
        | ok v =>
            by_cases hP : durPub = some InterruptDecision.PAUSE <;>
              simp [hP, stateOf, startCount_append, endCount_append,
                startCount, endCount] <;> omega
        | raise e =>
            by_cases hE : hooks.onError = true <;>
              simp [hE, stateOf, startCount_append, endCount_append,
                startCount, endCount] <;> omega
  | checkpoint name data =>
      obtain ⟨pub, durPub⟩ := pd
      simp only [execItem, offer_checkpoint]
      cases hc : hooks.onCheckpoint with
      | none => simp [stateOf]; omega
      | some h =>
          cases hout : h (viewOf { s with slot := applyPub s.slot pub }) name data <;>
            simp [hout, stateOf, startCount_append, endCount_append,
              startCount, endCount] <;> omega

/-- The step loop preserves start/end balance of the trace. -/
theorem execFlow_balanced (hooks : Hooks) (hs : hooks.onStepStart = true)
    (he : hooks.onStepEnd = true) :
    ∀ (flow : List FlowItem) (s : RunState)
      (sched : List (Option InterruptDecision × Option InterruptDecision)),
      startCount s.trace = endCount s.trace →
      startCount (execFlow hooks s flow sched).2.trace
        = endCount (execFlow hooks s flow sched).2.trace := by
  intro flow
  induction flow with
  | nil => intro s sched h; simpa [execFlow] using h
  | cons item rest ih =>
      intro s sched h
      have hc := execItem_count hooks hs he s item (sched.headD (none, none))
      simp only [execFlow]
      cases hq : execItem hooks s item (sched.headD (none, none)) with
      | running s1 =>
          apply ih
          rw [hq] at hc
          simp only [stateOf] at hc
          omega
      | done o s1 =>
          rw [hq] at hc
          simp only [stateOf] at hc
          simp only []
          omega

/-- C3: for every flow and interrupt schedule (with the start and end hooks
registered), the number of step-end hook invocations recorded over the whole
run equals the number of step-start hook invocations; and within one
non-aborted step the trace always extends by exactly start hook, work,
history append, (error hook only on failure), end hook — with the end hook
exactly once per step. -/
theorem hook_start_end_balanced (hooks : Hooks) (hs : hooks.onStepStart = true)
    (herr : hooks.onError = true) (he : hooks.onStepEnd = true) :
    (∀ (aid : String) (flow : List FlowItem)
       (sched : List (Option InterruptDecision × Option InterruptDecision)),
       startCount (execute hooks aid flow sched).2.trace
         = endCount (execute hooks aid flow sched).2.trace) ∧
    (∀ (s : RunState) (name : String) (work : StepContext → WorkOutcome)
       (inputs : List (String × Value)) (dur : Nat)
       (durPub : Option InterruptDecision),
       s.slot ≠ some InterruptDecision.ABORT →
       (stateOf (exec_step hooks s name work inputs dur durPub)).trace
         = s.trace ++
           (match work { step_name := name, inputs := inputs, metadata := [] } with
            | WorkOutcome.ok v =>
                [Event.startHook { step_name := name, inputs := inputs, metadata := [] },
                 Event.workCall name,
                 Event.recordResult
                   { step_name := name, success := true, duration := dur,
                     output := some v, error := none },
                 Event.endHook
                   { step_name := name, success := true, duration := dur,
                     output := some v, error := none }]
            | WorkOutcome.raise e =>
                [Event.startHook { step_name := name, inputs := inputs, metadata := [] },
                 Event.workCall name,
                 Event.recordResult
                   { step_name := name, success := false, duration := dur,
                     output := none, error := some e },
                 Event.errorHook e name,
                 Event.endHook
                   { step_name := name, success := false, duration := dur,
                     output := none, error := some e }])) := by
  constructor
  · intro aid flow sched
    exact execFlow_balanced hooks hs he flow (initState aid) sched rfl
  · intro s name work inputs dur durPub hA
    simp only [exec_step, hA, if_false, hs, he, herr, if_true]
    cases hwork : work { step_name := name, inputs := inputs, metadata := [] } with
    | ok v =>
        by_cases hP : durPub = some InterruptDecision.PAUSE <;> simp [hP, stateOf]
    | raise e => simp [stateOf]

/-- Witness for C3: the balance over the concrete pausable-flow run, and the
per-step trace shape at a concrete successful step. -/
theorem hook_start_end_balanced_witness :
    startCount (execute obsHooks "pausable" pFlow []).2.trace
      = endCount (execute obsHooks "pausable" pFlow []).2.trace ∧
    (stateOf (exec_step obsHooks (initState "a") "plan"
        (fun _ => WorkOutcome.ok "v") [] 1 none)).trace
      = [Event.startHook { step_name := "plan", inputs := [], metadata := [] },
         Event.workCall "plan",
         Event.recordResult
           { step_name := "plan", success := true, duration := 1,
             output := some "v", error := none },
         Event.endHook
           { step_name := "plan", success := true, duration := 1,
             output := some "v", error := none }] :=
  ⟨(hook_start_end_balanced obsHooks rfl rfl rfl).1 "pausable" pFlow [],
   (hook_start_end_balanced obsHooks rfl rfl rfl).2 (initState "a") "plan"
     (fun _ => WorkOutcome.ok "v") [] 1 none (by decide)⟩

/-- A successful result produced by the executor is exclusive. -/
theorem resultExclusive_ok (name : String) (dur : Nat) (v : Value) :
    resultExclusive
      { step_name := name, success := true, duration := dur,
        output := some v, error := none } := by
  simp [resultExclusive]

/-- A failed result produced by the executor is exclusive. -/
theorem resultExclusive_err (name : String) (dur : Nat) (e : ErrorInfo) :
    resultExclusive
      { step_name := name, success := false, duration := dur,
        output := none, error := some e } := by
  simp [resultExclusive]

/-- Every result in the history after one flow item was already there or is
exclusive. -/
theorem execItem_hist_exclusive (hooks : Hooks) (s : RunState) (item : FlowItem)
    (pd : Option InterruptDecision × Option InterruptDecision) :
    ∀ r ∈ (stateOf (execItem hooks s item pd)).hist,
      r ∈ s.hist ∨ resultExclusive r := by
  intro r hr
  cases item with
  | step name work inputs dur =>
      obtain ⟨pub, durPub⟩ := pd
      simp only [execItem, exec_step] at hr
      by_cases hA : applyPub s.slot pub = some InterruptDecision.ABORT
      · simp [hA, stateOf] at hr
        exact Or.inl hr
      · simp only [hA, if_false] at hr
        cases hwork : work { step_name := name, inputs := inputs, metadata := [] } with
        | ok v =>
            rw [hwork] at hr
            by_cases hP : durPub = some InterruptDecision.PAUSE <;>
              · simp [hP, stateOf, List.mem_append] at hr
                rcases hr with hr | hr
                · exact Or.inl hr
                · subst hr; exact Or.inr (resultExclusive_ok name dur v)
        | raise e =>
            rw [hwork] at hr
            simp [stateOf, List.mem_append] at hr
            rcases hr with hr | hr
            · exact Or.inl hr
            · subst hr; exact Or.inr (resultExclusive_err name dur e)
  | checkpoint name data =>
      obtain ⟨pub, durPub⟩ := pd
      simp only [execItem, offer_checkpoint] at hr
      cases hc : hooks.onCheckpoint with
      | none => rw [hc] at hr; exact Or.inl hr
      | some h =>
          rw [hc] at hr
          cases hout : h (viewOf { s with slot := applyPub s.slot pub }) name data <;>
            · simp only [hout, stateOf] at hr
              exact Or.inl hr

/-- The step loop preserves history-wide exclusivity. -/
theorem execFlow_hist_exclusive (hooks : Hooks) :
    ∀ (flow : List FlowItem) (s : RunState)
      (sched : List (Option InterruptDecision × Option InterruptDecision)),
      (∀ r ∈ s.hist, resultExclusive r) →
      ∀ r ∈ (execFlow hooks s flow sched).2.hist, resultExclusive r := by
  intro flow
  induction flow with
  | nil => intro s sched h r hr; exact h r (by simpa [execFlow] using hr)
  | cons item rest ih =>
      intro s sched h r hr
      have hstep := execItem_hist_exclusive hooks s item (sched.headD (none, none))
      simp only [execFlow] at hr
      cases hq : execItem hooks s item (sched.headD (none, none)) with
      | running s1 =>
          rw [hq] at hr
          refine ih s1 sched.tail ?_ r hr
          intro r1 hr1
          have hmem : r1 ∈ (stateOf (execItem hooks s item (sched.headD (none, none)))).hist := by
            rw [hq]; exact hr1
          rcases hstep r1 hmem with h1 | h1
          · exact h r1 h1
          · exact h1
      | done o s1 =>
          rw [hq] at hr
          have hmem : r ∈ (stateOf (execItem hooks s item (sched.headD (none, none)))).hist := by
            rw [hq]; exact hr
          rcases hstep r hmem with h1 | h1
          · exact h r h1
          · exact h1

/-- C5: every `StepResult` recorded by the step executor over any run
satisfies the exclusivity invariant — `success` holds exactly when `output`
is populated and `error` absent, and fails exactly when `error` is populated
and `output` absent. -/
theorem stepresult_exclusivity (hooks : Hooks) (aid : String)
    (flow : List FlowItem)
    (sched : List (Option InterruptDecision × Option InterruptDecision)) :
    ∀ r ∈ (execute hooks aid flow sched).2.hist, resultExclusive r :=
  execFlow_hist_exclusive hooks flow (initState aid) sched
    (by intro r hr; simp [initState] at hr)

/-- Witness for C5: the result recorded by a concrete one-step run is
exclusive. -/
theorem stepresult_exclusivity_witness :
    resultExclusive
      { step_name := "plan", success := true, duration := 1,
        output := some "plan_out", error := none } :=
  stepresult_exclusivity obsHooks "pausable" pFlow pauseSched
    { step_name := "plan", success := true, duration := 1,
      output := some "plan_out", error := none }
    (by decide)

/-- C6: a rejection raised by the registered checkpoint hook propagates
unchanged out of `offer_checkpoint` and terminates the run with
`CheckpointRejected`, the rest of the flow never driven; and in the concrete
scenario-B flow — a checkpoint named `"plan_ready"` offered after the `plan`
step with a hook that rejects that name — the run terminates with
`CheckpointRejected "plan_ready"` and the subsequent `execute` step is never
run. -/
theorem checkpoint_reject_propagates (hooks : Hooks) :
    (∀ (s : RunState) (name : String) (data : List (String × Value))
       (rest : List FlowItem)
       (sched : List (Option InterruptDecision × Option InterruptDecision))
       (pub durPub : Option InterruptDecision)
       (h : AgentView → String → List (String × Value) → CheckOutcome),
       hooks.onCheckpoint = some h →
       h (viewOf s) name data = CheckOutcome.reject →
       execFlow hooks s (FlowItem.checkpoint name data :: rest)
           ((pub, durPub) :: sched)
         = (ExecOutcome.checkpointRejected name,
            { s with slot := applyPub s.slot pub,
                     trace := s.trace ++ [Event.checkpointHook name data] })) ∧
    ((execute hooksB "demo" flowB []).1
        = ExecOutcome.checkpointRejected "plan_ready" ∧
     Event.workCall "execute" ∉ (execute hooksB "demo" flowB []).2.trace ∧
     "execute" ∉ (execute hooksB "demo" flowB []).2.hist.map
        (fun r => r.step_name)) := by
  constructor
  · intro s name data rest sched pub durPub h hc hrej
    have hv : viewOf { s with slot := applyPub s.slot pub } = viewOf s := rfl
    simp [execFlow, execItem, offer_checkpoint, hc, hv, hrej]
  · refine ⟨by decide, by decide, by decide⟩

/-- Witness for C6: the concrete scenario-B run, obtained by applying the
theorem's general clause at the state reached after the `plan` step as well
as reading off the concrete clause. -/
theorem checkpoint_reject_propagates_witness :
    (execute hooksB "demo" flowB []).1
      = ExecOutcome.checkpointRejected "plan_ready" ∧
    rejectPlanReady
        (viewOf (stateOf (execItem hooksB (initState "demo")
          (FlowItem.step "plan" (fun _ => WorkOutcome.ok "plan_out")
            [("task", "t")] 1) (none, none))))
        "plan_ready" [("plan", "plan_out")]
      = CheckOutcome.reject :=
  ⟨((checkpoint_reject_propagates hooksB).2).1, rfl⟩

/-- C7: `offer_checkpoint` with no checkpoint hook registered is a no-op
(the run state is returned untouched), and with a hook that approves it
continues normally having changed nothing but the recorded hook invocation —
in particular the state bag `custom` and the session history are unchanged,
for every checkpoint name and data payload. -/
theorem checkpoint_approve_noop (hooks : Hooks) (s : RunState) (name : String)
    (data : List (String × Value)) :
    (hooks.onCheckpoint = none →
       offer_checkpoint hooks s name data = RunStatus.running s) ∧
    (∀ h, hooks.onCheckpoint = some h →
       h (viewOf s) name data = CheckOutcome.approve →
       offer_checkpoint hooks s name data
         = RunStatus.running
             { s with trace := s.trace ++ [Event.checkpointHook name data] } ∧
       (stateOf (offer_checkpoint hooks s name data)).hist = s.hist ∧
       (stateOf (offer_checkpoint hooks s name data)).custom = s.custom ∧
       (stateOf (offer_checkpoint hooks s name data)).slot = s.slot) := by
  constructor
  · intro hnone
    simp [offer_checkpoint, hnone]
  · intro h hc happ
    have hmain : offer_checkpoint hooks s name data
        = RunStatus.running
            { s with trace := s.trace ++ [Event.checkpointHook name data] } := by
      simp [offer_checkpoint, hc, happ]
    exact ⟨hmain, by rw [hmain]; rfl, by rw [hmain]; rfl, by rw [hmain]; rfl⟩

/-- Witness for C7: a concrete no-op call with no hook registered, and a
concrete approving call that leaves history and custom state unchanged. -/
theorem checkpoint_approve_noop_witness :
    offer_checkpoint obsHooks (initState "a") "output_ready" [("output", "v")]
      = RunStatus.running (initState "a") ∧
    offer_checkpoint hooksB (initState "a") "results_ready" [("result", "v")]
      = RunStatus.running
          { initState "a" with
              trace := [Event.checkpointHook "results_ready" [("result", "v")]] } :=
  ⟨(checkpoint_approve_noop obsHooks (initState "a") "output_ready"
      [("output", "v")]).1 rfl,
   ((checkpoint_approve_noop hooksB (initState "a") "results_ready"
      [("result", "v")]).2 rejectPlanReady rfl rfl).1⟩

/-- C8: `send_interrupt` returns the default `CONTINUE` decision when no
interrupt-signal hook is registered; when one is registered it invokes the
hook with the agent view, reason and data, records the hook's decision as
the pending decision on the controller's slot, and returns exactly that
decision to its caller. -/
theorem send_interrupt_contract (hooks : Hooks) (view : AgentView)
    (reason : String) (data : List (String × Value))
    (slot : Option InterruptDecision) :
    (hooks.onInterrupt = none →
       send_interrupt hooks view reason data slot
         = (InterruptDecision.CONTINUE, slot)) ∧
    (∀ h, hooks.onInterrupt = some h →
       send_interrupt hooks view reason data slot
         = (h view reason data, some (h view reason data))) := by
  constructor
  · intro hnone; simp [send_interrupt, hnone]
  · intro h hc; simp [send_interrupt, hc]

/-- Witness for C8: with no hook the decision is `CONTINUE`; with a hook
mapping the reason `"user_interrupt"` to `PAUSE` (as in
`InterruptHooks.on_interrupt_signal` and
`StatePersistenceManager.on_interrupt_signal`), the returned and recorded
decision is `PAUSE`. -/
theorem send_interrupt_contract_witness :
    send_interrupt obsHooks { agent_id := "a", custom := [] } "user_interrupt" [] none
      = (InterruptDecision.CONTINUE, none) ∧
    send_interrupt
        { obsHooks with onInterrupt := some (fun _ reason _ =>
            if reason = "user_interrupt" then InterruptDecision.PAUSE
            else InterruptDecision.CONTINUE) }
        { agent_id := "a", custom := [] } "user_interrupt" [] none
      = (InterruptDecision.PAUSE, some InterruptDecision.PAUSE) :=
  ⟨(send_interrupt_contract obsHooks { agent_id := "a", custom := [] }
      "user_interrupt" [] none).1 rfl,
   (send_interrupt_contract
      { obsHooks with onInterrupt := some (fun _ reason _ =>
          if reason = "user_interrupt" then InterruptDecision.PAUSE
          else InterruptDecision.CONTINUE) }
      { agent_id := "a", custom := [] } "user_interrupt" [] none).2
      (fun _ reason _ =>
        if reason = "user_interrupt" then InterruptDecision.PAUSE
        else InterruptDecision.CONTINUE) rfl⟩

/-- C9: for the fixed four-step pausable flow, a run paused mid-flow by a
`PAUSE` decision records exactly the steps completed so far
(`plan`, `prepare`); a fresh `execute` call seeded with that recorded
history and skipping the already-completed steps completes the remaining
steps (`execute`, `finalize`) and produces the same final output as the
single uninterrupted run. -/
theorem pause_resume_equivalence :
    pRunPaused.1 = ExecOutcome.pausedRun ∧
    pCompleted = ["plan", "prepare"] ∧
    pRunResumed.1 = pRunFull.1 ∧
    pRunFull.1 = ExecOutcome.completed (some "final_out") ∧
    pRunResumed.2.hist.map (fun r => r.step_name)
      = ["plan", "prepare", "execute", "finalize"] :=
  ⟨rfl, rfl, rfl, rfl, rfl⟩

/-- C10: `StatePersistenceManager.resume` raises
`ValueError("Cannot resume - execution not paused")` whenever the execution
status is not `"paused"`, writing nothing to the persisted state; when the
status is `"paused"` it sets the status to `"in_progress"`, records
`resumed_at`, persists the updated state, and returns it — all other fields
unchanged. -/
theorem resume_only_from_paused (st : StateSaving.ExecutionState)
    (saved : List StateSaving.ExecutionState) (now : String) :
    (st.status ≠ "paused" →
       StateSaving.resume st saved now
         = (Except.error "Cannot resume - execution not paused", saved)) ∧
    (st.status = "paused" →
       StateSaving.resume st saved now
         = (Except.ok { st with status := "in_progress", resumed_at := some now },
            saved ++ [{ st with status := "in_progress", resumed_at := some now }])) := by
  constructor
  · intro hne; simp [StateSaving.resume, hne]
  · intro hp; simp [StateSaving.resume, hp]

/-- Witness for C10: resuming a concrete paused state succeeds and persists
the in-progress state; resuming a concrete in-progress state raises. -/
theorem resume_only_from_paused_witness :
    StateSaving.resume
        { session_id := "s1", started_at := "t0", status := "paused",
          completed_steps := [("plan", "t1", 1)], current_step := none,
          step_outputs := [("plan", "plan_out")], paused_at := some "t2",
          resumed_at := none } [] "t3"
      = (Except.ok
           { session_id := "s1", started_at := "t0", status := "in_progress",
             completed_steps := [("plan", "t1", 1)], current_step := none,
             step_outputs := [("plan", "plan_out")], paused_at := some "t2",
             resumed_at := some "t3" },
         [{ session_id := "s1", started_at := "t0", status := "in_progress",
            completed_steps := [("plan", "t1", 1)], current_step := none,
            step_outputs := [("plan", "plan_out")], paused_at := some "t2",
            resumed_at := some "t3" }]) ∧
    StateSaving.resume
        { session_id := "s1", started_at := "t0", status := "in_progress",
          completed_steps := [], current_step := none, step_outputs := [],
          paused_at := none, resumed_at := none } [] "t3"
      = (Except.error "Cannot resume - execution not paused", []) :=
  ⟨(resume_only_from_paused
      { session_id := "s1", started_at := "t0", status := "paused",
        completed_steps := [("plan", "t1", 1)], current_step := none,
        step_outputs := [("plan", "plan_out")], paused_at := some "t2",
        resumed_at := none } [] "t3").2 rfl,
   (resume_only_from_paused
      { session_id := "s1", started_at := "t0", status := "in_progress",
        completed_steps := [], current_step := none, step_outputs := [],
        paused_at := none, resumed_at := none } [] "t3").1 (by decide)⟩
